import Mathlib

/-!
Shallow embedding of the `fuzzy4` library (`src/fuzzy4/core.py`): a four-valued
fuzzy logic over pairs `(t, f)` of confirmation/refutation degrees.  Python
floats are modelled by rationals; every operation mirrors the source line by
line, with the dataclass `__post_init__` clamping folded into the constructor
`FuzzyBool.new`.
-/

namespace Fuzzy4

/-- `_clamp` from core.py: `max(0.0, min(1.0, value))`. -/
def clamp (value : ℚ) : ℚ := max 0 (min 1 value)

/-- `_t_norm` from core.py: product t-norm `a * b`. -/
def t_norm (a b : ℚ) : ℚ := a * b

/-- `_s_norm` from core.py: probabilistic sum `a + b - a*b`. -/
def s_norm (a b : ℚ) : ℚ := a + b - a * b

/-- The `FuzzyBool` dataclass: stored components `t` and `f`. -/
structure FuzzyBool where
  t : ℚ
  f : ℚ
  deriving DecidableEq

/-- Construction: the dataclass constructor runs `__post_init__`, clamping
both components into `[0, 1]`. -/
def FuzzyBool.new (t f : ℚ) : FuzzyBool := ⟨clamp t, clamp f⟩

/-- Property `truth`: `_t_norm(self.t, 1.0 - self.f)`. -/
def FuzzyBool.truth (x : FuzzyBool) : ℚ := t_norm x.t (1 - x.f)

/-- Property `falsity`: `_t_norm(self.f, 1.0 - self.t)`. -/
def FuzzyBool.falsity (x : FuzzyBool) : ℚ := t_norm x.f (1 - x.t)

/-- Property `unknown`: `_t_norm(1.0 - self.t, 1.0 - self.f)`. -/
def FuzzyBool.unknown (x : FuzzyBool) : ℚ := t_norm (1 - x.t) (1 - x.f)

/-- Property `conflict`: `_t_norm(self.t, self.f)`. -/
def FuzzyBool.conflict (x : FuzzyBool) : ℚ := t_norm x.t x.f

/-- `__invert__`: negation swaps the components, `FuzzyBool(self.f, self.t)`. -/
def FuzzyBool.invert (x : FuzzyBool) : FuzzyBool := FuzzyBool.new x.f x.t

/-- `__and__`: `FuzzyBool(t=_t_norm(self.t, other.t), f=_s_norm(self.f, other.f))`. -/
def FuzzyBool.and (x y : FuzzyBool) : FuzzyBool :=
  FuzzyBool.new (t_norm x.t y.t) (s_norm x.f y.f)

/-- `__or__`: `FuzzyBool(t=_s_norm(self.t, other.t), f=_t_norm(self.f, other.f))`. -/
def FuzzyBool.or (x y : FuzzyBool) : FuzzyBool :=
  FuzzyBool.new (s_norm x.t y.t) (t_norm x.f y.f)

/-- `__rshift__` (implication): `(~self) | other`. -/
def FuzzyBool.implies (x y : FuzzyBool) : FuzzyBool := (x.invert).or y

/-- `iff`: `(self >> other) & (other >> self)`. -/
def FuzzyBool.biimp (x y : FuzzyBool) : FuzzyBool :=
  (x.implies y).and (y.implies x)

/-- `__add__` (accumulation): both components combine via the probabilistic
sum, `FuzzyBool(t=_s_norm(self.t, other.t), f=_s_norm(self.f, other.f))`. -/
def FuzzyBool.add (x y : FuzzyBool) : FuzzyBool :=
  FuzzyBool.new (s_norm x.t y.t) (s_norm x.f y.f)

/-- `__mul__` on two values: component-wise product. -/
def FuzzyBool.mul (x y : FuzzyBool) : FuzzyBool :=
  FuzzyBool.new (x.t * y.t) (x.f * y.f)

/-- `__mul__` on a scalar: `FuzzyBool(t=self.t * other, f=self.f * other)`. -/
def FuzzyBool.mulScalar (x : FuzzyBool) (c : ℚ) : FuzzyBool :=
  FuzzyBool.new (x.t * c) (x.f * c)

/-- `__truediv__` on two values: component-wise division, where a zero
component of the divisor yields `0.0` for that component. -/
def FuzzyBool.div (x y : FuzzyBool) : FuzzyBool :=
  FuzzyBool.new (if y.t ≠ 0 then x.t / y.t else 0) (if y.f ≠ 0 then x.f / y.f else 0)

/-- `__truediv__` on a scalar: division by the zero scalar returns
`FuzzyBool(0.0, 0.0)`, otherwise both components are divided. -/
def FuzzyBool.divScalar (x : FuzzyBool) (c : ℚ) : FuzzyBool :=
  if c = 0 then FuzzyBool.new 0 0 else FuzzyBool.new (x.t / c) (x.f / c)

/-- The `1e-9` tolerance used by `__eq__`. -/
def eps : ℚ := 1 / 1000000000

/-- `__eq__`: approximate equality, both components within `1e-9`. -/
def FuzzyBool.beq (x y : FuzzyBool) : Bool :=
  decide (abs (x.t - y.t) < eps) && decide (abs (x.f - y.f) < eps)

/-- Round-half-to-even into the integers, modelling Python `round` applied to
`q * 10^9`. -/
def roundHalfEven (q : ℚ) : ℤ :=
  let n := ⌊q⌋
  let frac := q - n
  if frac < 1 / 2 then n
  else if 1 / 2 < frac then n + 1
  else if n % 2 = 0 then n else n + 1

/-- Python `round(v, 9)`: round to the nearest multiple of `1e-9`, ties to even. -/
def round9 (v : ℚ) : ℚ := (roundHalfEven (v * 1000000000) : ℚ) / 1000000000

/-- `__hash__`: `hash((round(self.t, 9), round(self.f, 9)))`; we model the hash
by the rounded key pair fed to Python's tuple hash. -/
def FuzzyBool.hashKey (x : FuzzyBool) : ℚ × ℚ := (round9 x.t, round9 x.f)

/-- `is_true(threshold)`: `self.truth >= threshold`. -/
def FuzzyBool.is_true (x : FuzzyBool) (threshold : ℚ) : Bool :=
  decide (x.truth ≥ threshold)

/-- `is_false(threshold)`: `self.falsity >= threshold`. -/
def FuzzyBool.is_false (x : FuzzyBool) (threshold : ℚ) : Bool :=
  decide (x.falsity ≥ threshold)

/-- `is_unknown(threshold)`: `self.unknown >= threshold`. -/
def FuzzyBool.is_unknown (x : FuzzyBool) (threshold : ℚ) : Bool :=
  decide (x.unknown ≥ threshold)

/-- `is_conflict(threshold)`: `self.conflict >= threshold`. -/
def FuzzyBool.is_conflict (x : FuzzyBool) (threshold : ℚ) : Bool :=
  decide (x.conflict ≥ threshold)

/-- One step of Python `max` over an iterable: the current best is replaced
only when the candidate's key is strictly larger. -/
def maxStep (best q : String × ℚ) : String × ℚ :=
  if best.2 < q.2 then q else best

/-- `dominant_state()`: Python `max` over the insertion-ordered dict
`{"true": truth, "false": falsity, "unknown": unknown, "conflict": conflict}`
keyed by the component value; `max` keeps the first element and replaces it
only on a strictly larger value. -/
def FuzzyBool.dominant_state (x : FuzzyBool) : String :=
  (maxStep (maxStep (maxStep ("true", x.truth) ("false", x.falsity))
      ("unknown", x.unknown)) ("conflict", x.conflict)).1

/-- Constant `TRUE = FuzzyBool(1.0, 0.0)`. -/
def TRUE : FuzzyBool := FuzzyBool.new 1 0

/-- Constant `FALSE = FuzzyBool(0.0, 1.0)`. -/
def FALSE : FuzzyBool := FuzzyBool.new 0 1

/-- Constant `UNKNOWN = FuzzyBool(0.0, 0.0)`. -/
def UNKNOWN : FuzzyBool := FuzzyBool.new 0 0

/-- Constant `CONFLICT = FuzzyBool(1.0, 1.0)`. -/
def CONFLICT : FuzzyBool := FuzzyBool.new 1 1

/-- Both components lie in `[0, 1]`: the invariant every constructed
`FuzzyBool` satisfies. -/
def FuzzyBool.valid (x : FuzzyBool) : Prop :=
  0 ≤ x.t ∧ x.t ≤ 1 ∧ 0 ≤ x.f ∧ x.f ≤ 1

/-- An element of an iterable argument passed to `accumulate`: either a
`FuzzyBool` or some other Python object. -/
inductive AccItem where
  | fuzzy (v : FuzzyBool)
  | nonFuzzy
  deriving DecidableEq

/-- An argument passed to `accumulate`: a `FuzzyBool`, an iterable (anything
with `__iter__`, e.g. a list or a string), or a non-iterable non-`FuzzyBool`
object. -/
inductive AccArg where
  | fuzzy (v : FuzzyBool)
  | iterable (items : List AccItem)
  | nonIterable
  deriving DecidableEq

/-- The exceptions `accumulate` can raise: `TypeError` or `ValueError`. -/
inductive AccError where
  | typeError
  | valueError
  deriving DecidableEq

/-- The inner loop of `accumulate` over one iterable argument: `FuzzyBool`
elements are appended in order; anything else raises `TypeError` at once. -/
def iterItems (acc : List FuzzyBool) : List AccItem → Except AccError (List FuzzyBool)
  | [] => .ok acc
  | AccItem.fuzzy v :: rest => iterItems (acc ++ [v]) rest
  | AccItem.nonFuzzy :: _ => .error .typeError

/-- The outer flattening loop of `accumulate`: a `FuzzyBool` argument is
appended, an iterable argument is walked by the inner loop, and any other
argument raises `TypeError`; the first exception propagates. -/
def flattenArgs (acc : List FuzzyBool) : List AccArg → Except AccError (List FuzzyBool)
  | [] => .ok acc
  | AccArg.fuzzy v :: rest => flattenArgs (acc ++ [v]) rest
  | AccArg.iterable items :: rest =>
      match iterItems acc items with
      | .ok acc' => flattenArgs acc' rest
      | .error e => .error e
  | AccArg.nonIterable :: _ => .error .typeError

/-- `FuzzyBool.accumulate(*args)`: flatten one level of nesting, raise
`ValueError` on an empty result, then left-fold `+` (accumulation). -/
def accumulate (args : List AccArg) : Except AccError FuzzyBool :=
  match flattenArgs [] args with
  | .error e => .error e
  | .ok [] => .error .valueError
  | .ok (v :: rest) => .ok (rest.foldl FuzzyBool.add v)

/-- Whether an iterable element is not a `FuzzyBool`. -/
def isNonFuzzy : AccItem → Bool
  | .nonFuzzy => true
  | .fuzzy _ => false

/-- Whether an argument makes `accumulate` raise `TypeError`: a non-iterable
non-`FuzzyBool`, or an iterable containing a non-`FuzzyBool` element. -/
def badArg : AccArg → Bool
  | .fuzzy _ => false
  | .iterable items => items.any isNonFuzzy
  | .nonIterable => true

/-- The `FuzzyBool` carried by a well-typed iterable element. -/
def extractItem : AccItem → Option FuzzyBool
  | .fuzzy v => some v
  | .nonFuzzy => none

/-- The list of `FuzzyBool` values an error-free flattening collects. -/
def goodFlatten : List AccArg → List FuzzyBool
  | [] => []
  | AccArg.fuzzy v :: rest => v :: goodFlatten rest
  | AccArg.iterable items :: rest => items.filterMap extractItem ++ goodFlatten rest
  | AccArg.nonIterable :: rest => goodFlatten rest

/-- A rational that is an exact integer multiple of `1e-9` (the equality
tolerance and the rounding grid of `__hash__`). -/
def onGrid (q : ℚ) : Prop := ∃ n : ℤ, q = n / 1000000000

theorem clamp_nonneg (v : ℚ) : 0 ≤ clamp v := le_max_left 0 _

theorem clamp_le_one (v : ℚ) : clamp v ≤ 1 := by
  unfold clamp
  rcases le_total 1 v with h | h
  · simp [min_eq_left h]
  · simp [min_eq_right h]
    exact h

theorem clamp_eq_self {v : ℚ} (h0 : 0 ≤ v) (h1 : v ≤ 1) : clamp v = v := by
  unfold clamp
  rw [min_eq_right h1, max_eq_right h0]

theorem new_valid (t f : ℚ) : (FuzzyBool.new t f).valid :=
  ⟨clamp_nonneg t, clamp_le_one t, clamp_nonneg f, clamp_le_one f⟩

theorem new_eq_self {x : FuzzyBool} (h : x.valid) : FuzzyBool.new x.t x.f = x := by
  obtain ⟨h0, h1, h2, h3⟩ := h
  unfold FuzzyBool.new
  rw [clamp_eq_self h0 h1, clamp_eq_self h2 h3]

theorem t_norm_mem {a b : ℚ} (ha0 : 0 ≤ a) (ha1 : a ≤ 1) (hb0 : 0 ≤ b)
    (hb1 : b ≤ 1) : 0 ≤ t_norm a b ∧ t_norm a b ≤ 1 := by
  unfold t_norm
  constructor
  · exact mul_nonneg ha0 hb0
  · nlinarith

theorem s_norm_mem {a b : ℚ} (ha0 : 0 ≤ a) (ha1 : a ≤ 1) (hb0 : 0 ≤ b)
    (hb1 : b ≤ 1) : 0 ≤ s_norm a b ∧ s_norm a b ≤ 1 := by
  unfold s_norm
  constructor
  · nlinarith
  · nlinarith

theorem and_components {x y : FuzzyBool} (hx : x.valid) (hy : y.valid) :
    x.and y = ⟨t_norm x.t y.t, s_norm x.f y.f⟩ := by
  obtain ⟨hx0, hx1, hx2, hx3⟩ := hx
  obtain ⟨hy0, hy1, hy2, hy3⟩ := hy
  obtain ⟨ht0, ht1⟩ := t_norm_mem hx0 hx1 hy0 hy1
  obtain ⟨hs0, hs1⟩ := s_norm_mem hx2 hx3 hy2 hy3
  unfold FuzzyBool.and FuzzyBool.new
  rw [clamp_eq_self ht0 ht1, clamp_eq_self hs0 hs1]

theorem or_components {x y : FuzzyBool} (hx : x.valid) (hy : y.valid) :
    x.or y = ⟨s_norm x.t y.t, t_norm x.f y.f⟩ := by
  obtain ⟨hx0, hx1, hx2, hx3⟩ := hx
  obtain ⟨hy0, hy1, hy2, hy3⟩ := hy
  obtain ⟨hs0, hs1⟩ := s_norm_mem hx0 hx1 hy0 hy1
  obtain ⟨ht0, ht1⟩ := t_norm_mem hx2 hx3 hy2 hy3
  unfold FuzzyBool.or FuzzyBool.new
  rw [clamp_eq_self hs0 hs1, clamp_eq_self ht0 ht1]

theorem add_components {x y : FuzzyBool} (hx : x.valid) (hy : y.valid) :
    x.add y = ⟨s_norm x.t y.t, s_norm x.f y.f⟩ := by
  obtain ⟨hx0, hx1, hx2, hx3⟩ := hx
  obtain ⟨hy0, hy1, hy2, hy3⟩ := hy
  obtain ⟨ha0, ha1⟩ := s_norm_mem hx0 hx1 hy0 hy1
  obtain ⟨hb0, hb1⟩ := s_norm_mem hx2 hx3 hy2 hy3
  unfold FuzzyBool.add FuzzyBool.new
  rw [clamp_eq_self ha0 ha1, clamp_eq_self hb0 hb1]

theorem invert_components {x : FuzzyBool} (hx : x.valid) :
    x.invert = ⟨x.f, x.t⟩ := by
  obtain ⟨hx0, hx1, hx2, hx3⟩ := hx
  unfold FuzzyBool.invert FuzzyBool.new
  rw [clamp_eq_self hx2 hx3, clamp_eq_self hx0 hx1]

theorem valid_swap {x : FuzzyBool} (hx : x.valid) :
    (FuzzyBool.mk x.f x.t).valid := ⟨hx.2.2.1, hx.2.2.2, hx.1, hx.2.1⟩

theorem beq_eq_true_iff (x y : FuzzyBool) :
    FuzzyBool.beq x y = true ↔ abs (x.t - y.t) < eps ∧ abs (x.f - y.f) < eps := by
  simp [FuzzyBool.beq]

theorem beq_of_eq {x y : FuzzyBool} (h : x = y) : FuzzyBool.beq x y = true := by
  subst h
  rw [beq_eq_true_iff]
  norm_num [eps]

/-- Claim C1: conjunction combines confirmations with the product t-norm and
refutations with the probabilistic sum: for valid operands,
`(x and y).t = x.t * y.t` and `(x and y).f = x.f + y.f - x.f * y.f`; on
`FuzzyValue(0.8, 0.2)` and `FuzzyValue(0.6, 0.3)` this yields `t = 0.48` and
`f = 0.44`. -/
theorem claim_C1_and_formula (x y : FuzzyBool) (hx : x.valid) (hy : y.valid) :
    (x.and y).t = t_norm x.t y.t ∧ (x.and y).f = s_norm x.f y.f
    ∧ t_norm x.t y.t = x.t * y.t ∧ s_norm x.f y.f = x.f + y.f - x.f * y.f
    ∧ ((FuzzyBool.new (8/10) (2/10)).and (FuzzyBool.new (6/10) (3/10))).t = 48/100
    ∧ ((FuzzyBool.new (8/10) (2/10)).and (FuzzyBool.new (6/10) (3/10))).f = 44/100 := by
  refine ⟨?_, ?_, rfl, rfl, ?_, ?_⟩
  · rw [and_components hx hy]
  · rw [and_components hx hy]
  · norm_num [FuzzyBool.and, FuzzyBool.new, clamp, t_norm, s_norm]
  · norm_num [FuzzyBool.and, FuzzyBool.new, clamp, t_norm, s_norm]

/-- Witness for C1 at the concrete pair `TRUE`, `FALSE`. -/
theorem claim_C1_and_formula_witness :
    (TRUE.and FALSE).t = t_norm TRUE.t FALSE.t :=
  (claim_C1_and_formula TRUE FALSE (new_valid 1 0) (new_valid 0 1)).1

/-- Claim C2: construction clamps both components into `[0, 1]` (below 0
becomes 0, above 1 becomes 1), so construction never fails;
`new(1.5, -0.3) == new(1.0, 0.0)`; and every operator result, being built by
the same constructor, satisfies the `[0, 1]` invariant. -/
theorem claim_C2_clamp_invariant (t f c : ℚ) (x y : FuzzyBool) :
    (FuzzyBool.new t f).valid
    ∧ (t ≤ 0 → (FuzzyBool.new t f).t = 0) ∧ (1 ≤ t → (FuzzyBool.new t f).t = 1)
    ∧ (f ≤ 0 → (FuzzyBool.new t f).f = 0) ∧ (1 ≤ f → (FuzzyBool.new t f).f = 1)
    ∧ FuzzyBool.beq (FuzzyBool.new (15/10) (-3/10)) (FuzzyBool.new 1 0) = true
    ∧ (x.and y).valid ∧ (x.or y).valid ∧ (x.add y).valid ∧ x.invert.valid
    ∧ (x.implies y).valid ∧ (x.biimp y).valid ∧ (x.mul y).valid
    ∧ (x.div y).valid ∧ (x.mulScalar c).valid ∧ (x.divScalar c).valid := by
  have hlow : ∀ v : ℚ, v ≤ 0 → clamp v = 0 := by
    intro v hv
    unfold clamp
    rw [min_eq_right (hv.trans zero_le_one), max_eq_left hv]
  have hhigh : ∀ v : ℚ, 1 ≤ v → clamp v = 1 := by
    intro v hv
    unfold clamp
    rw [min_eq_left hv]
    exact max_eq_right zero_le_one
  refine ⟨new_valid t f, fun h => hlow t h, fun h => hhigh t h,
    fun h => hlow f h, fun h => hhigh f h, ?_, ?_, ?_, ?_, ?_, ?_, ?_, ?_, ?_, ?_, ?_⟩
  · rw [beq_eq_true_iff]
    norm_num [FuzzyBool.new, clamp, eps]
  · exact new_valid _ _
  · exact new_valid _ _
  · exact new_valid _ _
  · exact new_valid _ _
  · exact new_valid _ _
  · exact new_valid _ _
  · exact new_valid _ _
  · exact new_valid _ _
  · exact new_valid _ _
  · unfold FuzzyBool.divScalar
    split
    · exact new_valid _ _
    · exact new_valid _ _

/-- Witness for C2 at concrete out-of-range inputs `t = 3/2`, `f = -1/2`. -/
theorem claim_C2_clamp_invariant_witness :
    (FuzzyBool.new (3/2) (-1/2)).t = 1 ∧ (FuzzyBool.new (3/2) (-1/2)).f = 0 :=
  ⟨(claim_C2_clamp_invariant (3/2) (-1/2) 0 TRUE TRUE).2.2.1 (by norm_num),
   (claim_C2_clamp_invariant (3/2) (-1/2) 0 TRUE TRUE).2.2.2.1 (by norm_num)⟩

/-- Claim C3: for every value with components in `[0, 1]²`, the four derived
components sum to 1 exactly:
`truth + falsity + unknown + conflict = 1`. -/
theorem claim_C3_partition_of_unity (x : FuzzyBool) (_h : x.valid) :
    x.truth + x.falsity + x.unknown + x.conflict = 1 := by
  unfold FuzzyBool.truth FuzzyBool.falsity FuzzyBool.unknown FuzzyBool.conflict t_norm
  ring

/-- Witness for C3 at the concrete value `TRUE`. -/
theorem claim_C3_partition_of_unity_witness :
    TRUE.truth + TRUE.falsity + TRUE.unknown + TRUE.conflict = 1 :=
  claim_C3_partition_of_unity TRUE (new_valid 1 0)

/-- Claim C4: De Morgan duality holds for all values:
`not (x and y) == (not x) or (not y)` and
`not (x or y) == (not x) and (not y)` under the `1e-9` tolerance equality. -/
theorem claim_C4_de_morgan (x y : FuzzyBool) (hx : x.valid) (hy : y.valid) :
    FuzzyBool.beq ((x.and y).invert) ((x.invert).or (y.invert)) = true
    ∧ FuzzyBool.beq ((x.or y).invert) ((x.invert).and (y.invert)) = true := by
  obtain ⟨hx0, hx1, hx2, hx3⟩ := hx
  obtain ⟨hy0, hy1, hy2, hy3⟩ := hy
  obtain ⟨ht0, ht1⟩ := t_norm_mem hx0 hx1 hy0 hy1
  obtain ⟨hs0, hs1⟩ := s_norm_mem hx2 hx3 hy2 hy3
  obtain ⟨hs0', hs1'⟩ := s_norm_mem hx0 hx1 hy0 hy1
  obtain ⟨ht0', ht1'⟩ := t_norm_mem hx2 hx3 hy2 hy3
  constructor
  · apply beq_of_eq
    rw [and_components ⟨hx0, hx1, hx2, hx3⟩ ⟨hy0, hy1, hy2, hy3⟩,
      invert_components (x := ⟨t_norm x.t y.t, s_norm x.f y.f⟩) ⟨ht0, ht1, hs0, hs1⟩,
      invert_components ⟨hx0, hx1, hx2, hx3⟩, invert_components ⟨hy0, hy1, hy2, hy3⟩,
      or_components (x := ⟨x.f, x.t⟩) (y := ⟨y.f, y.t⟩)
        ⟨hx2, hx3, hx0, hx1⟩ ⟨hy2, hy3, hy0, hy1⟩]
  · apply beq_of_eq
    rw [or_components ⟨hx0, hx1, hx2, hx3⟩ ⟨hy0, hy1, hy2, hy3⟩,
      invert_components (x := ⟨s_norm x.t y.t, t_norm x.f y.f⟩) ⟨hs0', hs1', ht0', ht1'⟩,
      invert_components ⟨hx0, hx1, hx2, hx3⟩, invert_components ⟨hy0, hy1, hy2, hy3⟩,
      and_components (x := ⟨x.f, x.t⟩) (y := ⟨y.f, y.t⟩)
        ⟨hx2, hx3, hx0, hx1⟩ ⟨hy2, hy3, hy0, hy1⟩]

/-- Witness for C4 at the concrete pair `TRUE`, `FALSE`. -/
theorem claim_C4_de_morgan_witness :
    FuzzyBool.beq ((TRUE.and FALSE).invert) ((TRUE.invert).or (FALSE.invert)) = true :=
  (claim_C4_de_morgan TRUE FALSE (new_valid 1 0) (new_valid 0 1)).1

/-- Claim C5: `UNKNOWN` is neutral for accumulation (`x + UNKNOWN == x` for
every valid value), accumulation saturates at the bounds
(`TRUE + TRUE = TRUE`), and neither component of a sum ever exceeds 1. -/
theorem claim_C5_plus_neutral_saturating (x : FuzzyBool) (hx : x.valid) :
    FuzzyBool.beq (x.add UNKNOWN) x = true
    ∧ TRUE.add TRUE = TRUE
    ∧ (∀ y z : FuzzyBool, (y.add z).t ≤ 1 ∧ (y.add z).f ≤ 1) := by
  refine ⟨?_, ?_, ?_⟩
  · apply beq_of_eq
    have hu : UNKNOWN = ⟨0, 0⟩ := by
      unfold UNKNOWN FuzzyBool.new
      norm_num [clamp]
    rw [hu, add_components hx ⟨le_refl 0, zero_le_one, le_refl 0, zero_le_one⟩]
    simp [s_norm]
  · unfold TRUE FuzzyBool.add FuzzyBool.new s_norm
    norm_num [clamp, FuzzyBool.mk.injEq]
  · intro y z
    exact ⟨clamp_le_one _, clamp_le_one _⟩

/-- Witness for C5 at the concrete value `FALSE`. -/
theorem claim_C5_plus_neutral_saturating_witness :
    FuzzyBool.beq (FALSE.add UNKNOWN) FALSE = true :=
  (claim_C5_plus_neutral_saturating FALSE (new_valid 0 1)).1

theorem iterItems_bad {items : List AccItem} (h : items.any isNonFuzzy = true)
    (acc : List FuzzyBool) : iterItems acc items = .error .typeError := by
  induction items generalizing acc with
  | nil => simp at h
  | cons it rest ih =>
    cases it with
    | fuzzy v =>
      simp only [List.any_cons, isNonFuzzy, Bool.false_or] at h
      exact ih h _
    | nonFuzzy => rfl

theorem iterItems_good {items : List AccItem} (h : items.any isNonFuzzy = false)
    (acc : List FuzzyBool) :
    iterItems acc items = .ok (acc ++ items.filterMap extractItem) := by
  induction items generalizing acc with
  | nil => simp [iterItems]
  | cons it rest ih =>
    cases it with
    | fuzzy v =>
      simp only [List.any_cons, isNonFuzzy, Bool.false_or] at h
      rw [iterItems, ih h, List.filterMap_cons]
      simp [extractItem]
    | nonFuzzy =>
      simp only [List.any_cons, isNonFuzzy, Bool.true_or] at h
      exact Bool.noConfusion h

theorem flattenArgs_iter_ok {items : List AccItem} {acc acc' : List FuzzyBool}
    (h : iterItems acc items = .ok acc') (rest : List AccArg) :
    flattenArgs acc (AccArg.iterable items :: rest) = flattenArgs acc' rest := by
  rw [flattenArgs, h]

theorem flattenArgs_iter_err {items : List AccItem} {acc : List FuzzyBool}
    (h : iterItems acc items = .error .typeError) (rest : List AccArg) :
    flattenArgs acc (AccArg.iterable items :: rest) = .error .typeError := by
  rw [flattenArgs, h]

theorem flattenArgs_bad {args : List AccArg} (h : ∃ a ∈ args, badArg a = true)
    (acc : List FuzzyBool) : flattenArgs acc args = .error .typeError := by
  induction args generalizing acc with
  | nil => simp at h
  | cons a rest ih =>
    obtain ⟨b, hb, hbad⟩ := h
    cases a with
    | fuzzy v =>
      have hrest : ∃ a ∈ rest, badArg a = true := by
        rcases List.mem_cons.mp hb with rfl | hmem
        · simp [badArg] at hbad
        · exact ⟨b, hmem, hbad⟩
      rw [flattenArgs]
      exact ih hrest _
    | iterable items =>
      rcases hany : items.any isNonFuzzy with _ | _
      · have hrest : ∃ a ∈ rest, badArg a = true := by
          rcases List.mem_cons.mp hb with rfl | hmem
          · rw [badArg, hany] at hbad
            exact absurd hbad (by simp)
          · exact ⟨b, hmem, hbad⟩
        rw [flattenArgs_iter_ok (iterItems_good hany acc) rest]
        exact ih hrest _
      · exact flattenArgs_iter_err (iterItems_bad hany acc) rest
    | nonIterable => rfl

theorem flattenArgs_good {args : List AccArg} (h : ∀ a ∈ args, badArg a = false)
    (acc : List FuzzyBool) : flattenArgs acc args = .ok (acc ++ goodFlatten args) := by
  induction args generalizing acc with
  | nil => simp [flattenArgs, goodFlatten]
  | cons a rest ih =>
    have hrest : ∀ a ∈ rest, badArg a = false := fun x hx => h x (List.mem_cons_of_mem a hx)
    cases a with
    | fuzzy v =>
      rw [flattenArgs, ih hrest, goodFlatten]
      simp
    | iterable items =>
      have hany : items.any isNonFuzzy = false := h _ (List.mem_cons_self _ _)
      rw [flattenArgs_iter_ok (iterItems_good hany acc) rest, ih hrest, goodFlatten]
      simp
    | nonIterable =>
      have hfalse : badArg AccArg.nonIterable = false := h _ (List.mem_cons_self _ _)
      simp [badArg] at hfalse

/-- Claim C6: `accumulate` flattens one level of nesting and left-folds `+`
over the result; it raises `TypeError` whenever some argument is neither a
`FuzzyBool` nor an iterable of `FuzzyBool`s, raises `ValueError` whenever
the flattened sequence is empty, returns the left fold of `+` otherwise, and
on failure returns an exception rather than any partial result; in
particular `accumulate([])` raises `ValueError` and
`accumulate(TRUE, "bad")` raises `TypeError`. -/
theorem claim_C6_accumulate_errors (args : List AccArg) :
    ((∃ a ∈ args, badArg a = true) → accumulate args = .error .typeError)
    ∧ ((∀ a ∈ args, badArg a = false) → goodFlatten args = [] →
        accumulate args = .error .valueError)
    ∧ (∀ v rest, (∀ a ∈ args, badArg a = false) → goodFlatten args = v :: rest →
        accumulate args = .ok (rest.foldl FuzzyBool.add v))
    ∧ accumulate [AccArg.iterable []] = .error .valueError
    ∧ accumulate [AccArg.fuzzy TRUE,
        AccArg.iterable [AccItem.nonFuzzy, AccItem.nonFuzzy, AccItem.nonFuzzy]]
        = .error .typeError := by
  refine ⟨?_, ?_, ?_, rfl, rfl⟩
  · intro h
    rw [accumulate, flattenArgs_bad h]
  · intro h hempty
    rw [accumulate, flattenArgs_good h]
    simp [hempty]
  · intro v rest h hcons
    rw [accumulate, flattenArgs_good h]
    simp [hcons]

/-- Witness for C6 at concrete argument lists. -/
theorem claim_C6_accumulate_errors_witness :
    accumulate [AccArg.nonIterable] = .error .typeError
    ∧ accumulate [AccArg.fuzzy TRUE, AccArg.fuzzy FALSE]
        = .ok ([FALSE].foldl FuzzyBool.add TRUE) :=
  ⟨(claim_C6_accumulate_errors [AccArg.nonIterable]).1
      ⟨AccArg.nonIterable, by simp, rfl⟩,
   (claim_C6_accumulate_errors [AccArg.fuzzy TRUE, AccArg.fuzzy FALSE]).2.2.1
      TRUE [FALSE]
      (by
        intro a ha
        simp only [List.mem_cons, List.not_mem_nil, or_false] at ha
        rcases ha with rfl | rfl <;> rfl)
      rfl⟩

/-- Claim C7: division never fails: a zero component of the divisor yields 0
for that component of the component-wise quotient, scalar division by zero
returns `UNKNOWN` unconditionally, and
`FuzzyValue(0.5, 0.5) / FuzzyValue(0.0, 0.5)` yields `t = 0`, `f = 1`. -/
theorem claim_C7_division_policy (x y : FuzzyBool) (c : ℚ) :
    (y.t = 0 → (x.div y).t = 0)
    ∧ (y.f = 0 → (x.div y).f = 0)
    ∧ (c = 0 → x.divScalar c = UNKNOWN)
    ∧ ((FuzzyBool.new (5/10) (5/10)).div (FuzzyBool.new 0 (5/10))).t = 0
    ∧ ((FuzzyBool.new (5/10) (5/10)).div (FuzzyBool.new 0 (5/10))).f = 1 := by
  refine ⟨?_, ?_, ?_, ?_, ?_⟩
  · intro h
    norm_num [FuzzyBool.div, FuzzyBool.new, clamp, h]
  · intro h
    norm_num [FuzzyBool.div, FuzzyBool.new, clamp, h]
  · intro h
    unfold FuzzyBool.divScalar
    rw [if_pos h]
    rfl
  · norm_num [FuzzyBool.div, FuzzyBool.new, clamp]
  · norm_num [FuzzyBool.div, FuzzyBool.new, clamp]

/-- Witness for C7 at the concrete inputs `TRUE / UNKNOWN` and `TRUE / 0`. -/
theorem claim_C7_division_policy_witness :
    (TRUE.div UNKNOWN).t = 0 ∧ TRUE.divScalar 0 = UNKNOWN :=
  ⟨(claim_C7_division_policy TRUE UNKNOWN 0).1 (by norm_num [UNKNOWN, FuzzyBool.new, clamp]),
   (claim_C7_division_policy TRUE UNKNOWN 0).2.2.1 rfl⟩

/-- Claim C8 fails as stated: `FuzzyValue(4e-10, 0)` and `FuzzyValue(6e-10, 0)`
are equal under the `1e-9` tolerance, yet their components round to different
9-decimal values, so their hashes differ. -/
theorem claim_C8_counterexample :
    FuzzyBool.beq (FuzzyBool.new (4/10000000000) 0) (FuzzyBool.new (6/10000000000) 0) = true
    ∧ (FuzzyBool.new (4/10000000000) 0).hashKey ≠ (FuzzyBool.new (6/10000000000) 0).hashKey := by
  constructor
  · rw [beq_eq_true_iff]
    norm_num [FuzzyBool.new, clamp, eps, abs]
  · intro h
    have h1 : ((FuzzyBool.new (4/10000000000) 0).hashKey).1
        = ((FuzzyBool.new (6/10000000000) 0).hashKey).1 := by rw [h]
    rw [FuzzyBool.hashKey, FuzzyBool.hashKey] at h1
    norm_num [FuzzyBool.new, clamp, round9, roundHalfEven] at h1

theorem grid_eq {p q : ℚ} (hp : onGrid p) (hq : onGrid q)
    (h : abs (p - q) < eps) : p = q := by
  obtain ⟨a, rfl⟩ := hp
  obtain ⟨b, rfl⟩ := hq
  have hN : (0:ℚ) < 1000000000 := by norm_num
  have habs : abs ((a:ℚ) - b) < 1 := by
    rw [div_sub_div_same, abs_div, abs_of_pos hN] at h
    rw [eps] at h
    rw [div_lt_div_iff₀ hN (by norm_num)] at h
    linarith
  have hint : |a - b| < 1 := by exact_mod_cast habs
  have : a - b = 0 := Int.abs_lt_one_iff.mp hint
  have hab : a = b := by omega
  rw [hab]

/-- Claim C8 amended: the hash is the pair of components rounded to the
nearest multiple of `1e-9`, so hash agreement with the tolerance equality is
only guaranteed on the rounding grid: if all four components are exact
integer multiples of `1e-9` and `x == y` under the `1e-9` tolerance, then
`hash(x) == hash(y)`; off the grid, tolerance-equal values may hash
differently. -/
theorem claim_C8_hash_on_grid (x y : FuzzyBool)
    (hxt : onGrid x.t) (hxf : onGrid x.f) (hyt : onGrid y.t) (hyf : onGrid y.f)
    (h : FuzzyBool.beq x y = true) : x.hashKey = y.hashKey := by
  rw [beq_eq_true_iff] at h
  have ht : x.t = y.t := grid_eq hxt hyt h.1
  have hf : x.f = y.f := grid_eq hxf hyf h.2
  rw [FuzzyBool.hashKey, FuzzyBool.hashKey, ht, hf]

/-- Witness for the amended C8 at a concrete grid value. -/
theorem claim_C8_hash_on_grid_witness :
    (FuzzyBool.new (2/1000000000) 0).hashKey = (FuzzyBool.new (2/1000000000) 0).hashKey :=
  claim_C8_hash_on_grid _ _
    ⟨2, by norm_num [FuzzyBool.new, clamp]⟩
    ⟨0, by norm_num [FuzzyBool.new, clamp]⟩
    ⟨2, by norm_num [FuzzyBool.new, clamp]⟩
    ⟨0, by norm_num [FuzzyBool.new, clamp]⟩
    (beq_of_eq rfl)

/-- Claim C9: `dominant_state` breaks ties by the fixed insertion order
true, false, unknown, conflict, returning the first name in that order whose
derived component attains the maximum; on `FuzzyValue(0.5, 0.5)` all four
components equal `0.25` and the result is `"true"`. -/
theorem claim_C9_dominant_tie_order (x : FuzzyBool) :
    (x.falsity ≤ x.truth ∧ x.unknown ≤ x.truth ∧ x.conflict ≤ x.truth →
      x.dominant_state = "true")
    ∧ (x.truth < x.falsity ∧ x.unknown ≤ x.falsity ∧ x.conflict ≤ x.falsity →
      x.dominant_state = "false")
    ∧ (x.truth < x.unknown ∧ x.falsity < x.unknown ∧ x.conflict ≤ x.unknown →
      x.dominant_state = "unknown")
    ∧ (x.truth < x.conflict ∧ x.falsity < x.conflict ∧ x.unknown < x.conflict →
      x.dominant_state = "conflict")
    ∧ (FuzzyBool.new (5/10) (5/10)).dominant_state = "true" := by
  have keep : ∀ (s r : String) (a b : ℚ), b ≤ a → maxStep (s, a) (r, b) = (s, a) := by
    intro s r a b hab
    simp only [maxStep]
    rw [if_neg (not_lt.mpr hab)]
  have repl : ∀ (s r : String) (a b : ℚ), a < b → maxStep (s, a) (r, b) = (r, b) := by
    intro s r a b hab
    simp only [maxStep]
    rw [if_pos hab]
  refine ⟨?_, ?_, ?_, ?_, ?_⟩
  · rintro ⟨h1, h2, h3⟩
    unfold FuzzyBool.dominant_state
    rw [keep _ _ _ _ h1, keep _ _ _ _ h2, keep _ _ _ _ h3]
  · rintro ⟨h1, h2, h3⟩
    unfold FuzzyBool.dominant_state
    rw [repl _ _ _ _ h1, keep _ _ _ _ h2, keep _ _ _ _ h3]
  · rintro ⟨h1, h2, h3⟩
    unfold FuzzyBool.dominant_state
    rcases lt_or_le x.truth x.falsity with hc | hc
    · rw [repl _ _ _ _ hc, repl _ _ _ _ h2, keep _ _ _ _ h3]
    · rw [keep _ _ _ _ hc, repl _ _ _ _ h1, keep _ _ _ _ h3]
  · rintro ⟨h1, h2, h3⟩
    unfold FuzzyBool.dominant_state
    rcases lt_or_le x.truth x.falsity with hc | hc
    · rw [repl _ _ _ _ hc]
      rcases lt_or_le x.falsity x.unknown with hd | hd
      · rw [repl _ _ _ _ hd, repl _ _ _ _ h3]
      · rw [keep _ _ _ _ hd, repl _ _ _ _ h2]
    · rw [keep _ _ _ _ hc]
      rcases lt_or_le x.truth x.unknown with hd | hd
      · rw [repl _ _ _ _ hd, repl _ _ _ _ h3]
      · rw [keep _ _ _ _ hd, repl _ _ _ _ h1]
  · norm_num [FuzzyBool.dominant_state, maxStep, FuzzyBool.new, clamp,
      FuzzyBool.truth, FuzzyBool.falsity, FuzzyBool.unknown, FuzzyBool.conflict, t_norm]

/-- Witness for C9 at the concrete value `TRUE`. -/
theorem claim_C9_dominant_tie_order_witness : TRUE.dominant_state = "true" :=
  (claim_C9_dominant_tie_order TRUE).1
    (by norm_num [TRUE, FuzzyBool.new, clamp, FuzzyBool.truth, FuzzyBool.falsity,
      FuzzyBool.unknown, FuzzyBool.conflict, t_norm])

/-- Claim C10: the derived predicates compare inclusively: `is_true(h)` holds
iff `truth >= h` (likewise the other three), so a component exactly equal to
the threshold satisfies the predicate. -/
theorem claim_C10_inclusive_thresholds (x : FuzzyBool) (h : ℚ) :
    (x.is_true h = true ↔ h ≤ x.truth)
    ∧ (x.is_false h = true ↔ h ≤ x.falsity)
    ∧ (x.is_unknown h = true ↔ h ≤ x.unknown)
    ∧ (x.is_conflict h = true ↔ h ≤ x.conflict)
    ∧ x.is_true x.truth = true ∧ x.is_false x.falsity = true
    ∧ x.is_unknown x.unknown = true ∧ x.is_conflict x.conflict = true := by
  simp [FuzzyBool.is_true, FuzzyBool.is_false, FuzzyBool.is_unknown,
    FuzzyBool.is_conflict, ge_iff_le, le_refl]

end Fuzzy4
